import Mathlib

/-!
Verification of the Schumaker spline construction routine
(`schumaker_spline.py`).  The construction is embedded shallowly:
all field arithmetic is exact (a linear ordered field `K`,
instantiated at `ℚ` for concrete checks and at `ℝ` for the full
pipeline, whose slope estimator takes square roots).  Fallible steps
(assertions, out-of-bounds array reads, reads of a local variable
that was never assigned) are modelled with `Except`.
-/

namespace Schumaker

/-- Failure modes of the Python routine:
`validationError` stands for an `assert` failing (lines 21, 22, 25),
`nameError` for the read of the local `delta` on line 52 when the
slope-estimation block (lines 28-38), the only assignment of `delta`,
was skipped because slopes were supplied, and
`indexError` for an out-of-bounds array access (possible only when
there are fewer than two points). -/
inductive Err : Type
  | validationError : Err
  | nameError : Err
  | indexError : Err
  deriving DecidableEq, Repr

/-- One coefficient triple `[A, B, C]` of the table (lines 47-49, 75-81):
the quadratic on the sub-interval with left knot `t` is
`a + b*(v - t) + c*(v - t)^2`. -/
structure Coef (K : Type) where
  a : K
  b : K
  c : K
  deriving DecidableEq, Repr

/-- Value of a coefficient triple at offset `h` from its left knot. -/
def evalQ {K : Type} [LinearOrderedField K] (c : Coef K) (h : K) : K :=
  c.a + c.b * h + c.c * h ^ 2

/-- Consecutive differences, `np.diff` (lines 22, 29, 30). -/
def diffs {K : Type} [LinearOrderedField K] (l : List K) : List K :=
  List.zipWith (fun u v => v - u) l l.tail

/-- Secant slopes `delta = np.diff(y) / np.diff(x)` (line 30). -/
def secants {K : Type} [LinearOrderedField K] (x y : List K) : List K :=
  List.zipWith (fun dy dx => dy / dx) (diffs y) (diffs x)

/-- The inserted knot `e` of Case 2, lines 52-59: the three-way rule on
how the endpoint slopes `s0`, `s1` relate to `d` (the value `delta[i]`),
with the non-strict test checked first. -/
def insertedKnot {K : Type} [LinearOrderedField K] (x0 x1 s0 s1 d : K) : K :=
  if (s0 - d) * (s1 - d) ≥ 0 then
    (x0 + x1) / 2
  else if |s1 - d| < |s0 - d| then
    (x0 + (x0 + 2 * (x1 - x0) * (s1 - d) / (s1 - s0))) / 2
  else
    (x1 + (x1 + 2 * (x1 - x0) * (s0 - d) / (s1 - s0))) / 2

/-- The two coefficient triples of a subdivided interval, lines 65-81. -/
def caseTwo {K : Type} [LinearOrderedField K] (x0 x1 y0 y1 s0 s1 e : K) :
    List (Coef K) :=
  let α := e - x0
  let β := x1 - e
  let sbar := (2 * (y1 - y0) - (α * s0 + β * s1)) / (x1 - x0)
  let a1 := y0
  let b1 := s0
  let c1 := (sbar - s0) / (2 * α)
  let a2 := a1 + α * b1 + α ^ 2 * c1
  let b2 := sbar
  let c2 := (s1 - sbar) / (2 * β)
  [⟨a1, b1, c1⟩, ⟨a2, b2, c2⟩]

/-- One loop iteration of lines 42-81 for the interval `[x0, x1]`:
either Case 1 (a single knot `x0` and a single triple, when the slope
average equals the secant exactly, line 46) or Case 2 (knots `x0` and
`e`, two triples).  `d?` is the value `delta[i]` when the local `delta`
exists (slopes were estimated); when slopes were supplied the local was
never assigned and line 52 raises a name error. -/
def buildInterval {K : Type} [LinearOrderedField K]
    (x0 x1 y0 y1 s0 s1 : K) (d? : Option K) :
    Except Err (List K × List (Coef K)) :=
  if (s0 + s1) / 2 = (y1 - y0) / (x1 - x0) then
    .ok ([x0], [⟨y0, s0, (s1 - s0) / (2 * (x1 - x0))⟩])
  else
    match d? with
    | none => .error .nameError
    | some d =>
      let e := insertedKnot x0 x1 s0 s1 d
      .ok ([x0, e], caseTwo x0 x1 y0 y1 s0 s1 e)

/-- Lines 41-83: the loop over the intervals followed by appending the
last point as final knot.  `d?` carries the remaining entries of the
local `delta` when it exists.  The empty-`x` case models the
out-of-bounds read `x[n-1]` of line 83; a `y` or `s` list that is too
short would be an out-of-bounds read of `y[i+1]` or `s[i+1]`
(unreachable after validation). -/
def buildSegs {K : Type} [LinearOrderedField K] :
    List K → List K → List K → Option (List K) →
    Except Err (List K × List (Coef K))
  | x0 :: x1 :: xs, y0 :: y1 :: ys, s0 :: s1 :: ss, d? =>
    match buildInterval x0 x1 y0 y1 s0 s1 (d?.bind List.head?) with
    | .error e => .error e
    | .ok (ks, cs) =>
      match buildSegs (x1 :: xs) (y1 :: ys) (s1 :: ss)
          (d?.map (List.drop 1)) with
      | .error e => .error e
      | .ok (ks', cs') => .ok (ks ++ ks', cs ++ cs')
  | [x0], _, _, _ => .ok ([x0], [])
  | [], _, _, _ => .error .indexError
  | _ :: _ :: _, _, _, _ => .error .indexError

/-- The three `assert` statements, lines 21-25: `len(y) == n`,
`np.all(np.diff(x) > 0)` (x strictly ascending), and, when slopes are
supplied, `len(s) == n`. -/
def validate {K : Type} [LinearOrderedField K]
    (x y : List K) (s? : Option (List K)) : Except Err Unit :=
  if y.length ≠ x.length then .error .validationError
  else if ¬ List.Chain' (· < ·) x then .error .validationError
  else
    match s? with
    | none => .ok ()
    | some s =>
      if s.length ≠ x.length then .error .validationError else .ok ()

/-- Chord lengths `L = np.sqrt(np.diff(x)**2 + np.diff(y)**2)`, line 29. -/
noncomputable def chordLengths (x y : List ℝ) : List ℝ :=
  List.zipWith (fun dx dy => Real.sqrt (dx ^ 2 + dy ^ 2)) (diffs x) (diffs y)

/-- Value written by the loop of lines 32-36 into the interior entry
`s[i]` (`1 ≤ i ≤ n-2`); each loop iteration reads only `L` and `delta`,
so the iterations are independent and the loop value is a pure function
of the input.  Entries outside the loop range keep the `np.zeros`
initial value `0`. -/
noncomputable def sLoopFn (x y : List ℝ) (i : ℕ) : ℝ :=
  if 1 ≤ i ∧ i ≤ x.length - 2 then
    if (secants x y).getD (i - 1) 0 * (secants x y).getD i 0 > 0 then
      ((chordLengths x y).getD (i - 1) 0 * (secants x y).getD (i - 1) 0 +
          (chordLengths x y).getD i 0 * (secants x y).getD i 0) /
        ((chordLengths x y).getD (i - 1) 0 + (chordLengths x y).getD i 0)
    else 0
  else 0

/-- Line 37, `s[0] = (3*delta[0] - s[1]) / 2`: the `s[1]` read is the
loop value for `n ≥ 3` and the initial `0` for `n = 2`; `sLoopFn x y 1`
is both. -/
noncomputable def sHead (x y : List ℝ) : ℝ :=
  (3 * (secants x y).getD 0 0 - sLoopFn x y 1) / 2

/-- Line 38, `s[n-1] = (3*delta[n-2] - s[n-2]) / 2`: for `n = 2` the
`s[n-2]` read sees the value just assigned to `s[0]` by line 37,
otherwise it sees the loop value of the interior entry `n-2`. -/
noncomputable def sLastVal (x y : List ℝ) : ℝ :=
  (3 * (secants x y).getD (x.length - 2) 0 -
      (if x.length - 2 = 0 then sHead x y else sLoopFn x y (x.length - 2))) /
    2

/-- The final state of the slope array after lines 31-38. -/
noncomputable def estSlope (x y : List ℝ) (i : ℕ) : ℝ :=
  if i = 0 then sHead x y
  else if i = x.length - 1 then sLastVal x y
  else sLoopFn x y i

/-- The slope-estimation block, lines 28-38, as the final array state.
For `n < 2` the reads `delta[0]` (when `n ≤ 1`) and `delta[n-2]` are
out of bounds, an index error. -/
noncomputable def estimateSlopes (x y : List ℝ) : Except Err (List ℝ) :=
  if x.length < 2 then .error .indexError
  else .ok ((List.range x.length).map (estSlope x y))

/-- The whole construction routine in `coeffs` mode (lines 19-86):
validate, estimate slopes when none are supplied (only then does the
local `delta` exist), loop over the intervals, return the knot and
coefficient arrays. -/
noncomputable def schumakerCore (x y : List ℝ) (s? : Option (List ℝ)) :
    Except Err (List ℝ × List (Coef ℝ)) :=
  match validate x y s? with
  | .error e => .error e
  | .ok _ =>
    match s? with
    | some s => buildSegs x y s none
    | none =>
      match estimateSlopes x y with
      | .error e => .error e
      | .ok s => buildSegs x y s (some (secants x y))

/-! ## Position of the inserted knot -/

/-- Core lemma on the knot-placement rule of lines 52-59: whatever the
slopes and `d`, the inserted knot lies strictly inside the interval. -/
lemma insertedKnot_mem {K : Type} [LinearOrderedField K] (x0 x1 s0 s1 d : K)
    (hx : x0 < x1) :
    x0 < insertedKnot x0 x1 s0 s1 d ∧ insertedKnot x0 x1 s0 s1 d < x1 := by
  have hx' : 0 < x1 - x0 := sub_pos.mpr hx
  unfold insertedKnot
  split_ifs with hA h2
  · constructor <;> [linarith; linarith]
  · have hab : (s0 - d) * (s1 - d) < 0 := lt_of_not_le hA
    have he : (x0 + (x0 + 2 * (x1 - x0) * (s1 - d) / (s1 - s0))) / 2 =
        x0 + (x1 - x0) * ((s1 - d) / (s1 - s0)) := by ring
    rw [he]
    have hbound : ∀ r : K, 0 < r → r < 1 →
        x0 < x0 + (x1 - x0) * r ∧ x0 + (x1 - x0) * r < x1 := by
      intro r hr0 hr1
      have hm0 : 0 < (x1 - x0) * r := mul_pos hx' hr0
      have hm1 : (x1 - x0) * r < x1 - x0 := mul_lt_of_lt_one_right hx' hr1
      constructor <;> linarith
    rcases mul_neg_iff.mp hab with ⟨ha, hb⟩ | ⟨ha, hb⟩
    · have hd : s1 - s0 < 0 := by linarith
      have hr0 : 0 < (s1 - d) / (s1 - s0) := div_pos_of_neg_of_neg hb hd
      have hr1 : (s1 - d) / (s1 - s0) < 1 := by
        rw [div_lt_one_of_neg hd]; linarith
      exact hbound _ hr0 hr1
    · have hd : 0 < s1 - s0 := by linarith
      have hr0 : 0 < (s1 - d) / (s1 - s0) := div_pos hb hd
      have hr1 : (s1 - d) / (s1 - s0) < 1 := by
        rw [div_lt_one hd]; linarith
      exact hbound _ hr0 hr1
  · have hab : (s0 - d) * (s1 - d) < 0 := lt_of_not_le hA
    have he : (x1 + (x1 + 2 * (x1 - x0) * (s0 - d) / (s1 - s0))) / 2 =
        x1 + (x1 - x0) * ((s0 - d) / (s1 - s0)) := by ring
    rw [he]
    have hbound : ∀ r : K, -1 < r → r < 0 →
        x0 < x1 + (x1 - x0) * r ∧ x1 + (x1 - x0) * r < x1 := by
      intro r hr1 hr0
      have hm0 : (x1 - x0) * r < 0 := mul_neg_of_pos_of_neg hx' hr0
      have hm1 : (x1 - x0) * (-1) < (x1 - x0) * r := mul_lt_mul_of_pos_left hr1 hx'
      constructor <;> nlinarith
    rcases mul_neg_iff.mp hab with ⟨ha, hb⟩ | ⟨ha, hb⟩
    · have hd : s1 - s0 < 0 := by linarith
      have hr0 : (s0 - d) / (s1 - s0) < 0 := div_neg_of_pos_of_neg ha hd
      have hr1 : -1 < (s0 - d) / (s1 - s0) := by
        have h1 : -((s0 - d) / (s1 - s0)) < 1 := by
          rw [← neg_div, div_lt_one_of_neg hd]; linarith
        linarith
      exact hbound _ hr1 hr0
    · have hd : 0 < s1 - s0 := by linarith
      have hr0 : (s0 - d) / (s1 - s0) < 0 := div_neg_of_neg_of_pos ha hd
      have hr1 : -1 < (s0 - d) / (s1 - s0) := by
        have h1 : -((s0 - d) / (s1 - s0)) < 1 := by
          rw [← neg_div, div_lt_one hd]; linarith
        linarith
      exact hbound _ hr1 hr0

/-- CLAIM C10: in Case 2, whenever the midpoint branch is not taken the
two slopes differ (so the division by `s1 - s0` in the other two
branches is well defined), and in exact arithmetic every inserted knot
lies strictly between the interval endpoints (so `α > 0` and `β > 0`
and the divisions by `2α` and `2β` are well defined). -/
theorem c10_inserted_knot_safety {K : Type} [LinearOrderedField K]
    (x0 x1 s0 s1 d : K) (hx : x0 < x1) :
    (¬ (s0 - d) * (s1 - d) ≥ 0 → s1 ≠ s0) ∧
    x0 < insertedKnot x0 x1 s0 s1 d ∧ insertedKnot x0 x1 s0 s1 d < x1 := by
  refine ⟨?_, insertedKnot_mem x0 x1 s0 s1 d hx⟩
  intro hA hss
  exact hA (hss ▸ mul_self_nonneg (s0 - d))

/-- Witness for C10 at a concrete input: `x0 = 0`, `x1 = 1`,
`s0 = 3`, `s1 = 0`, `d = 1` (a Case-2 configuration where the midpoint
test fails), over `ℚ`. -/
theorem c10_witness :
    (¬ ((3 : ℚ) - 1) * ((0 : ℚ) - 1) ≥ 0 → (0 : ℚ) ≠ 3) ∧
      (0 : ℚ) < insertedKnot (0 : ℚ) 1 3 0 1 ∧
      insertedKnot (0 : ℚ) 1 3 0 1 < 1 :=
  c10_inserted_knot_safety (0 : ℚ) 1 3 0 1 (by norm_num)

/-! ## Shape of a built interval -/

/-- A successful interval build has one of exactly two shapes:
Case 1 (one knot, one triple) or Case 2 (two knots, two triples, only
when `delta` exists). -/
lemma buildInterval_ok {K : Type} [LinearOrderedField K]
    {x0 x1 y0 y1 s0 s1 : K} {d? : Option K}
    {ks : List K} {cs : List (Coef K)}
    (h : buildInterval x0 x1 y0 y1 s0 s1 d? = .ok (ks, cs)) :
    ((s0 + s1) / 2 = (y1 - y0) / (x1 - x0) ∧
      ks = [x0] ∧ cs = [⟨y0, s0, (s1 - s0) / (2 * (x1 - x0))⟩]) ∨
    ((s0 + s1) / 2 ≠ (y1 - y0) / (x1 - x0) ∧
      ∃ d, d? = some d ∧ ks = [x0, insertedKnot x0 x1 s0 s1 d] ∧
        cs = caseTwo x0 x1 y0 y1 s0 s1 (insertedKnot x0 x1 s0 s1 d)) := by
  unfold buildInterval at h
  split_ifs at h with hc
  · left
    refine ⟨hc, ?_, ?_⟩ <;> simp_all
  · right
    cases d? with
    | none => simp at h
    | some d =>
      refine ⟨hc, d, rfl, ?_, ?_⟩ <;> simp_all

/-- CLAIM C6: for each interval, exactly one knot and one coefficient
triple `(A, B, C) = (y0, s0, (s1-s0)/(2h))` are emitted iff the slope
average equals the secant exactly; otherwise two knots and two triples
are emitted, the inserted knot chosen by the three-way rule whose
first branch, checked before the others, is the non-strict test
`(s0-d)*(s1-d) ≥ 0` giving the midpoint.  (`d` is `delta[i]`, which in
the only crash-free Case-2 path equals the secant of interval `i`.) -/
theorem c6_case_split {K : Type} [LinearOrderedField K]
    (x0 x1 y0 y1 s0 s1 d : K) :
    (buildInterval x0 x1 y0 y1 s0 s1 (some d) =
        .ok ([x0], [⟨y0, s0, (s1 - s0) / (2 * (x1 - x0))⟩]) ↔
      (s0 + s1) / 2 = (y1 - y0) / (x1 - x0)) ∧
    ((s0 + s1) / 2 ≠ (y1 - y0) / (x1 - x0) →
      buildInterval x0 x1 y0 y1 s0 s1 (some d) =
        .ok ([x0, insertedKnot x0 x1 s0 s1 d],
          caseTwo x0 x1 y0 y1 s0 s1 (insertedKnot x0 x1 s0 s1 d)) ∧
      (caseTwo x0 x1 y0 y1 s0 s1 (insertedKnot x0 x1 s0 s1 d)).length = 2 ∧
      (0 ≤ (s0 - d) * (s1 - d) → insertedKnot x0 x1 s0 s1 d = (x0 + x1) / 2)) := by
  constructor
  · constructor
    · intro h
      rcases buildInterval_ok h with ⟨hc, _, _⟩ | ⟨_, d', _, hks, _⟩
      · exact hc
      · simp at hks
    · intro hc
      unfold buildInterval
      rw [if_pos hc]
  · intro hc
    refine ⟨?_, by simp [caseTwo], ?_⟩
    · unfold buildInterval
      rw [if_neg hc]
    · intro hge
      unfold insertedKnot
      rw [if_pos hge]

/-- Witness for C6 at a concrete input over `ℚ`: the interval `[0, 1]`
with `y = 0, 1` and slopes `0, 0` (`d = 1`): the slope average `0`
differs from the secant `1`, so two knots and two triples are emitted
with the midpoint `1/2` inserted. -/
theorem c6_witness :
    buildInterval (0 : ℚ) 1 0 1 0 0 (some 1) =
      .ok ([0, insertedKnot (0 : ℚ) 1 0 0 1],
        caseTwo (0 : ℚ) 1 0 1 0 0 (insertedKnot (0 : ℚ) 1 0 0 1)) ∧
    (caseTwo (0 : ℚ) 1 0 1 0 0 (insertedKnot (0 : ℚ) 1 0 0 1)).length = 2 ∧
    insertedKnot (0 : ℚ) 1 0 0 1 = (0 + 1) / 2 := by
  have h := (c6_case_split (0 : ℚ) 1 0 1 0 0 1).2 (by norm_num)
  exact ⟨h.1, h.2.1, h.2.2 (by norm_num)⟩

/-! ## Claim C8: no degenerate-interval guard, but exact subdivision is safe -/

/-- CLAIM C8 (amended): the source contains no degeneracy check and no
`DegenerateIntervalError` (the `Err` type of this embedding has no such
constructor because the source raises no such error); instead, in exact
arithmetic every Case-2 subdivision returns normally with an inserted
knot strictly inside the interval, so `α = e - x0 > 0` and
`β = x1 - e > 0` and the divisions by `2α` and `2β` are well defined —
however small `α` or `β` may be, no error is surfaced. -/
theorem c8_no_degeneracy_guard {K : Type} [LinearOrderedField K]
    (x0 x1 y0 y1 s0 s1 d : K) (hx : x0 < x1)
    (hc : (s0 + s1) / 2 ≠ (y1 - y0) / (x1 - x0)) :
    ∃ e, buildInterval x0 x1 y0 y1 s0 s1 (some d) =
        .ok ([x0, e], caseTwo x0 x1 y0 y1 s0 s1 e) ∧
      0 < e - x0 ∧ 0 < x1 - e := by
  refine ⟨insertedKnot x0 x1 s0 s1 d, ?_, ?_, ?_⟩
  · unfold buildInterval
    rw [if_neg hc]
  · have := (insertedKnot_mem x0 x1 s0 s1 d hx).1
    linarith
  · have := (insertedKnot_mem x0 x1 s0 s1 d hx).2
    linarith

/-- Witness for C8 (amended) at a concrete input over `ℚ`. -/
theorem c8_witness :
    ∃ e, buildInterval (0 : ℚ) 1 0 1 0 0 (some 1) =
        .ok ([0, e], caseTwo (0 : ℚ) 1 0 1 0 0 e) ∧
      0 < e - 0 ∧ 0 < 1 - e :=
  c8_no_degeneracy_guard (0 : ℚ) 1 0 1 0 0 1 (by norm_num) (by norm_num)

/-! ## Invariants of the full knot/coefficient output -/

/-- Invariants of the segment loop, by induction over the point list:
for a strictly increasing `x`, a successful run yields strictly
increasing knots that start at `x`'s head and end at `x`'s last point,
with `len x ≤ len knots ≤ 2 len x - 1` and one coefficient triple per
consecutive pair of knots. -/
lemma buildSegs_invariants {K : Type} [LinearOrderedField K] :
    ∀ (x y s : List K) (d? : Option (List K)) (ks : List K)
      (cs : List (Coef K)),
    List.Chain' (· < ·) x → y.length = x.length → s.length = x.length →
    buildSegs x y s d? = .ok (ks, cs) →
    List.Chain' (· < ·) ks ∧ ks.head? = x.head? ∧
      ks.getLast? = x.getLast? ∧ x.length ≤ ks.length ∧
      ks.length ≤ 2 * x.length - 1 ∧ cs.length + 1 = ks.length
  | [], _, _, _, ks, cs, _, _, _, h => by
    simp [buildSegs] at h
  | [x0], y, s, d?, ks, cs, _, _, _, h => by
    simp only [buildSegs, Except.ok.injEq, Prod.mk.injEq] at h
    obtain ⟨hks, hcs⟩ := h
    subst hks; subst hcs
    simp
  | x0 :: x1 :: xs, y, s, d?, ks, cs, hch, hy, hs, h => by
    rcases y with _ | ⟨y0, y⟩
    · simp at hy
    rcases y with _ | ⟨y1, ys⟩
    · simp at hy
    rcases s with _ | ⟨s0, s⟩
    · simp at hs
    rcases s with _ | ⟨s1, ss⟩
    · simp at hs
    rw [buildSegs] at h
    cases hI : buildInterval x0 x1 y0 y1 s0 s1 (d?.bind List.head?) with
    | error e => rw [hI] at h; simp at h
    | ok p =>
      rw [hI] at h
      obtain ⟨ksI, csI⟩ := p
      cases hR : buildSegs (x1 :: xs) (y1 :: ys) (s1 :: ss)
          (d?.map (List.drop 1)) with
      | error e => rw [hR] at h; simp at h
      | ok q =>
        rw [hR] at h
        obtain ⟨ksR, csR⟩ := q
        simp only [Except.ok.injEq, Prod.mk.injEq] at h
        obtain ⟨hks, hcs⟩ := h
        have hx01 : x0 < x1 := (List.chain'_cons.mp hch).1
        have IH := buildSegs_invariants (x1 :: xs) (y1 :: ys) (s1 :: ss)
          (d?.map (List.drop 1)) ksR csR (List.chain'_cons.mp hch).2
          (by simpa using hy) (by simpa using hs) hR
        obtain ⟨ihch, ihhd, ihlast, ihlen1, ihlen2, ihcs⟩ := IH
        have hRne : ksR ≠ [] := by
          intro hnil
          rw [hnil] at ihhd
          simp at ihhd
        have hRhd : ksR.head? = some x1 := by simpa using ihhd
        rcases buildInterval_ok hI with ⟨_, hksI, hcsI⟩ |
            ⟨_, d, _, hksI, hcsI⟩
        · subst hksI; subst hcsI; subst hks; subst hcs
          have hlen : ksR.length = csR.length + 1 := ihcs.symm
          have hxl : (x1 :: xs).length ≤ ksR.length := ihlen1
          have hxu : ksR.length ≤ 2 * (x1 :: xs).length - 1 := ihlen2
          refine ⟨?_, by simp, ?_, ?_, ?_, ?_⟩
          · rw [List.chain'_append]
            refine ⟨by simp, ihch, ?_⟩
            intro a ha b hb
            simp at ha
            rw [hRhd] at hb
            simp at hb
            subst ha; subst hb
            exact hx01
          · rw [List.getLast?_append_of_ne_nil _ hRne, ihlast,
              List.getLast?_cons_cons]
          · simp only [List.length_append, List.length_cons, List.length_nil] at hxl ⊢
            omega
          · simp only [List.length_append, List.length_cons, List.length_nil] at hxu ⊢
            omega
          · simp only [List.length_append, List.length_cons, List.length_nil] at hlen ⊢
            omega
        · have he := insertedKnot_mem x0 x1 s0 s1 d hx01
          subst hksI; subst hcsI; subst hks; subst hcs
          have hlen : ksR.length = csR.length + 1 := ihcs.symm
          have hxl : (x1 :: xs).length ≤ ksR.length := ihlen1
          have hxu : ksR.length ≤ 2 * (x1 :: xs).length - 1 := ihlen2
          refine ⟨?_, by simp, ?_, ?_, ?_, ?_⟩
          · rw [List.chain'_append]
            refine ⟨by simp [he.1], ihch, ?_⟩
            intro a ha b hb
            simp at ha
            rw [hRhd] at hb
            simp at hb
            subst ha; subst hb
            exact he.2
          · rw [List.getLast?_append_of_ne_nil _ hRne, ihlast,
              List.getLast?_cons_cons]
          · simp only [List.length_append, List.length_cons, List.length_nil] at hxl ⊢
            omega
          · simp only [List.length_append, List.length_cons, List.length_nil] at hxu ⊢
            omega
          · simp only [caseTwo, List.length_append, List.length_cons,
              List.length_nil] at hlen ⊢
            omega

/-! ## Inverting a successful pipeline run -/

/-- A passing validation means: equal lengths, strictly increasing `x`,
and (when supplied) a slope list of the same length. -/
lemma validate_ok_elim {K : Type} [LinearOrderedField K] {x y : List K}
    {s? : Option (List K)} (h : validate x y s? = .ok ()) :
    y.length = x.length ∧ List.Chain' (· < ·) x ∧
      ∀ s, s? = some s → s.length = x.length := by
  unfold validate at h
  by_cases h1 : y.length ≠ x.length
  · rw [if_pos h1] at h
    exact absurd h (by simp)
  rw [if_neg h1] at h
  by_cases h2 : ¬ List.Chain' (· < ·) x
  · rw [if_pos h2] at h
    exact absurd h (by simp)
  rw [if_neg h2] at h
  refine ⟨not_not.mp h1, not_not.mp h2, ?_⟩
  intro s hs
  rw [hs] at h
  simpa using h

/-- The estimated slope list has one entry per point. -/
lemma estimateSlopes_length {x y : List ℝ} {s : List ℝ}
    (h : estimateSlopes x y = .ok s) : s.length = x.length := by
  simp only [estimateSlopes] at h
  by_cases hn : x.length < 2
  · rw [if_pos hn] at h
    exact absurd h (by simp)
  · rw [if_neg hn] at h
    simp only [Except.ok.injEq] at h
    rw [← h]
    simp

/-- A successful run of the routine factors through validation and the
segment loop with some slope list of the right length. -/
lemma schumakerCore_ok_elim {x y : List ℝ} {s? : Option (List ℝ)}
    {ks : List ℝ} {cs : List (Coef ℝ)}
    (h : schumakerCore x y s? = .ok (ks, cs)) :
    ∃ (s : List ℝ) (d? : Option (List ℝ)),
      List.Chain' (· < ·) x ∧ y.length = x.length ∧ s.length = x.length ∧
        buildSegs x y s d? = .ok (ks, cs) := by
  unfold schumakerCore at h
  cases hv : validate x y s? with
  | error e => rw [hv] at h; simp at h
  | ok u =>
    cases u
    rw [hv] at h
    obtain ⟨hy, hch, hs⟩ := validate_ok_elim hv
    cases s? with
    | some s =>
      exact ⟨s, none, hch, hy, hs s rfl, h⟩
    | none =>
      cases hes : estimateSlopes x y with
      | error e => rw [hes] at h; simp at h
      | ok s =>
        rw [hes] at h
        exact ⟨s, some (secants x y), hch, hy, estimateSlopes_length hes, h⟩

/-- CLAIM C3: for every valid input of `n` points, a successful run
returns a strictly increasing knot sequence of length `k` with
`n ≤ k ≤ 2n - 1`, beginning with `x[0]` and ending with `x[n-1]`, and
a coefficient table of exactly `k - 1` entries. -/
theorem c3_knot_invariants (x y : List ℝ) (s? : Option (List ℝ))
    (ks : List ℝ) (cs : List (Coef ℝ)) (hn : 2 ≤ x.length)
    (h : schumakerCore x y s? = .ok (ks, cs)) :
    List.Chain' (· < ·) ks ∧ ks.head? = x.head? ∧
      ks.getLast? = x.getLast? ∧ x.length ≤ ks.length ∧
      ks.length ≤ 2 * x.length - 1 ∧ cs.length + 1 = ks.length := by
  obtain ⟨s, d?, hch, hy, hs, hb⟩ := schumakerCore_ok_elim h
  exact buildSegs_invariants x y s d? ks cs hch hy hs hb

/-! ## Which inputs produce a validation failure -/

/-- The interval builder never raises a validation failure. -/
lemma buildInterval_ne_validation {K : Type} [LinearOrderedField K]
    (x0 x1 y0 y1 s0 s1 : K) (d? : Option K) :
    buildInterval x0 x1 y0 y1 s0 s1 d? ≠ .error .validationError := by
  unfold buildInterval
  split_ifs
  · simp
  · cases d? <;> simp

/-- The segment loop never raises a validation failure. -/
lemma buildSegs_ne_validation {K : Type} [LinearOrderedField K] :
    ∀ (x y s : List K) (d? : Option (List K)),
      buildSegs x y s d? ≠ .error .validationError
  | [], _, _, _ => by simp [buildSegs]
  | [x0], _, _, _ => by simp [buildSegs]
  | x0 :: x1 :: xs, [], s, d? => by simp [buildSegs]
  | x0 :: x1 :: xs, [y0], s, d? => by simp [buildSegs]
  | x0 :: x1 :: xs, y0 :: y1 :: ys, [], d? => by simp [buildSegs]
  | x0 :: x1 :: xs, y0 :: y1 :: ys, [s0], d? => by simp [buildSegs]
  | x0 :: x1 :: xs, y0 :: y1 :: ys, s0 :: s1 :: ss, d? => by
    intro hcontra
    rw [buildSegs] at hcontra
    cases hI : buildInterval x0 x1 y0 y1 s0 s1 (d?.bind List.head?) with
    | error e =>
      rw [hI] at hcontra
      simp only [Except.error.injEq] at hcontra
      exact buildInterval_ne_validation x0 x1 y0 y1 s0 s1
        (d?.bind List.head?) (hcontra ▸ hI)
    | ok p =>
      obtain ⟨ksI, csI⟩ := p
      rw [hI] at hcontra
      cases hR : buildSegs (x1 :: xs) (y1 :: ys) (s1 :: ss)
          (d?.map (List.drop 1)) with
      | error e =>
        rw [hR] at hcontra
        simp only [Except.error.injEq] at hcontra
        exact buildSegs_ne_validation (x1 :: xs) (y1 :: ys) (s1 :: ss)
          (d?.map (List.drop 1)) (hcontra ▸ hR)
      | ok q =>
        obtain ⟨ksR, csR⟩ := q
        rw [hR] at hcontra
        simp at hcontra

/-- The slope estimator never raises a validation failure (its only
failure mode is the out-of-bounds read for fewer than two points). -/
lemma estimateSlopes_ne_validation (x y : List ℝ) :
    estimateSlopes x y ≠ .error .validationError := by
  simp only [estimateSlopes]
  by_cases hn : x.length < 2
  · rw [if_pos hn]; simp
  · rw [if_neg hn]; simp

/-- The validation step fails exactly on a length mismatch, a
non-ascending `x`, or a supplied slope list of the wrong length. -/
lemma validate_error_iff {K : Type} [LinearOrderedField K]
    (x y : List K) (s? : Option (List K)) :
    validate x y s? = .error .validationError ↔
      (y.length ≠ x.length ∨ ¬ List.Chain' (· < ·) x ∨
        ∃ s, s? = some s ∧ s.length ≠ x.length) := by
  unfold validate
  by_cases h1 : y.length ≠ x.length
  · rw [if_pos h1]; simp [h1]
  rw [if_neg h1]
  by_cases h2 : ¬ List.Chain' (· < ·) x
  · rw [if_pos h2]; simp [h2]
  rw [if_neg h2]
  have h1' : y.length = x.length := not_not.mp h1
  have h2' : List.Chain' (· < ·) x := not_not.mp h2
  cases s? with
  | none => simp [h1', h2']
  | some s =>
    by_cases h3 : s.length ≠ x.length
    · simp [h1', h2', h3]
    · have h3' : s.length = x.length := not_not.mp h3
      simp [h1', h2', h3']

/-- CLAIM C7 (amended): the routine fails with a validation error
exactly when `len(y) ≠ len(x)`, or a supplied slope list has length
`≠ len(x)`, or `x` is not strictly increasing.  There is no
fewer-than-2-points validation: that part of the claim is refuted by
`c7_counterexample` (a 1-point input with a supplied slope returns
normally). -/
theorem c7_validation_iff (x y : List ℝ) (s? : Option (List ℝ)) :
    schumakerCore x y s? = .error .validationError ↔
      (y.length ≠ x.length ∨ ¬ List.Chain' (· < ·) x ∨
        ∃ s, s? = some s ∧ s.length ≠ x.length) := by
  rw [← validate_error_iff x y s?]
  unfold schumakerCore
  cases hv : validate x y s? with
  | error e => simp
  | ok u =>
    cases u
    simp only [Except.ok.injEq]
    cases s? with
    | some s =>
      simp [buildSegs_ne_validation x y s none]
    | none =>
      cases hes : estimateSlopes x y with
      | error e =>
        have hne0 := estimateSlopes_ne_validation x y
        rw [hes] at hne0
        constructor
        · intro he
          simp at he
          exact (hne0 (by rw [he])).elim
        · intro hcontra
          simp at hcontra
      | ok s =>
        simp [buildSegs_ne_validation x y s (some (secants x y))]

/-- Counterexample to CLAIM C7 as stated: a single-point input (fewer
than 2 points) with a supplied slope passes every assertion and
returns normally — knot list `[x0]`, empty coefficient table — instead
of failing with a validation error. -/
theorem c7_counterexample :
    schumakerCore [0] [0] (some [1]) = .ok ([0], []) := by
  norm_num [schumakerCore, validate, buildSegs]

/-- Witness for C7 (amended): a concrete length mismatch is reported
as a validation failure. -/
theorem c7_witness :
    schumakerCore [0, 1, 2] [0, 1] none = .error .validationError :=
  (c7_validation_iff [0, 1, 2] [0, 1] none).mpr (Or.inl (by norm_num))

/-! ## Claim C1: supplied slopes crash in Case 2 -/

/-- CLAIM C1 is a code bug: with caller-supplied slopes the
slope-estimation block is skipped, so the local `delta` read by
Case 2 (line 52) was never assigned.  On `x = [0,1]`, `y = [0,1]`,
`s = [0,0]` — a valid input whose slope average `0` differs from the
secant `1`, forcing Case 2 — the routine raises a name error instead
of returning a `(knots, coefficients)` pair. -/
theorem c1_supplied_slopes_crash :
    schumakerCore [0, 1] [0, 1] (some [0, 0]) = .error .nameError := by
  norm_num [schumakerCore, validate, buildSegs, buildInterval]

/-! ## Concrete straight-line runs (used as witnesses) -/

/-- A supplied-slope run on collinear data: every interval is Case 1. -/
lemma run_linear3 :
    schumakerCore [0, 1, 2] [0, 1, 2] (some [1, 1, 1]) =
      .ok ([0, 1, 2], [⟨0, 1, 0⟩, ⟨1, 1, 0⟩]) := by
  norm_num [schumakerCore, validate, buildSegs, buildInterval]

/-- An estimated-slope run on the collinear 3-4-5 data
`x = [0,3,6]`, `y = [0,4,8]`: the estimator returns slope `4/3`
everywhere and every interval is Case 1. -/
lemma run_pyth3 :
    schumakerCore [0, 3, 6] [0, 4, 8] none =
      .ok ([0, 3, 6], [⟨0, 4 / 3, 0⟩, ⟨4, 4 / 3, 0⟩]) := by
  have hr : List.range 3 = [0, 1, 2] := rfl
  have h5 : Real.sqrt (25 : ℝ) = 5 := by
    rw [show (25 : ℝ) = 5 ^ 2 by norm_num]
    exact Real.sqrt_sq (by norm_num)
  norm_num [schumakerCore, validate, estimateSlopes, estSlope, sHead,
    sLastVal, sLoopFn, secants, diffs, chordLengths, hr, h5, buildSegs,
    buildInterval]

/-- Witness for C3: the invariants at the concrete estimated-slope run
`x = [0,3,6]`, `y = [0,4,8]`. -/
theorem c3_witness :
    List.Chain' (· < ·) ([0, 3, 6] : List ℝ) ∧
      ([0, 3, 6] : List ℝ).head? = ([0, 3, 6] : List ℝ).head? ∧
      ([0, 3, 6] : List ℝ).getLast? = ([0, 3, 6] : List ℝ).getLast? ∧
      ([0, 3, 6] : List ℝ).length ≤ ([0, 3, 6] : List ℝ).length ∧
      ([0, 3, 6] : List ℝ).length ≤ 2 * ([0, 3, 6] : List ℝ).length - 1 ∧
      ([⟨0, 4 / 3, 0⟩, ⟨4, 4 / 3, 0⟩] : List (Coef ℝ)).length + 1 =
        ([0, 3, 6] : List ℝ).length :=
  c3_knot_invariants [0, 3, 6] [0, 4, 8] none [0, 3, 6]
    [⟨0, 4 / 3, 0⟩, ⟨4, 4 / 3, 0⟩] (by norm_num) run_pyth3

/-! ## C0 continuity across knots -/

/-- Two consecutive (left-knot, coefficient-triple) pairs join
continuously: the earlier quadratic evaluated at the later pair's left
knot equals the later pair's constant coefficient `A`. -/
def segJoin {K : Type} [LinearOrderedField K] :
    K × Coef K → K × Coef K → Prop :=
  fun p q => evalQ p.2 (q.1 - p.1) = q.2.a

/-- Per-interval continuity: a successfully built interval block has
internally joined pieces, its last piece evaluates to `y1` at `x1`,
its first triple has constant coefficient `y0`, and it emits equally
many knots and triples starting at `x0`. -/
lemma buildInterval_cont {K : Type} [LinearOrderedField K]
    {x0 x1 y0 y1 s0 s1 : K} {d? : Option K} {ks : List K}
    {cs : List (Coef K)} (hx : x0 < x1)
    (h : buildInterval x0 x1 y0 y1 s0 s1 d? = .ok (ks, cs)) :
    List.Chain' segJoin (ks.zip cs) ∧
      (∀ p, (ks.zip cs).getLast? = some p → evalQ p.2 (x1 - p.1) = y1) ∧
      (∀ c, cs.head? = some c → c.a = y0) ∧
      ks.length = cs.length ∧ ks.head? = some x0 := by
  have hne : x1 - x0 ≠ 0 := sub_ne_zero.mpr (ne_of_gt hx)
  rcases buildInterval_ok h with ⟨hc, hks, hcs⟩ | ⟨hc, d, _, hks, hcs⟩
  · subst hks; subst hcs
    refine ⟨by simp, ?_, ?_, by simp, by simp⟩
    · intro p hp
      simp only [List.zip_cons_cons, List.zip_nil_right,
        List.getLast?_singleton, Option.some.injEq] at hp
      subst hp
      have hy1 : y1 = y0 + (x1 - x0) * ((s0 + s1) / 2) := by
        rw [hc]
        field_simp
      rw [hy1]
      simp only [evalQ]
      field_simp
      ring
    · intro c hc'
      simp only [List.head?_cons, Option.some.injEq] at hc'
      rw [← hc']
  · have hm := insertedKnot_mem x0 x1 s0 s1 d hx
    have hα : insertedKnot x0 x1 s0 s1 d - x0 ≠ 0 :=
      sub_ne_zero.mpr (ne_of_gt hm.1)
    have hβ : x1 - insertedKnot x0 x1 s0 s1 d ≠ 0 :=
      sub_ne_zero.mpr (ne_of_gt hm.2)
    subst hks; subst hcs
    set e := insertedKnot x0 x1 s0 s1 d with he
    refine ⟨?_, ?_, ?_, by simp [caseTwo], by simp⟩
    · simp only [caseTwo, List.zip_cons_cons, List.zip_nil_right]
      rw [List.chain'_cons]
      refine ⟨?_, by simp⟩
      simp only [segJoin, evalQ]
      ring
    · intro p hp
      simp only [caseTwo, List.zip_cons_cons, List.zip_nil_right,
        List.getLast?_cons_cons, List.getLast?_singleton,
        Option.some.injEq] at hp
      subst hp
      simp only [evalQ]
      field_simp
      ring
    · intro c hc'
      simp only [caseTwo, List.head?_cons, Option.some.injEq] at hc'
      rw [← hc']

/-- Continuity of the whole output, by induction over the intervals:
consecutive (knot, triple) pairs always join continuously, and the
first triple's constant coefficient is the first `y` value. -/
lemma buildSegs_chain {K : Type} [LinearOrderedField K] :
    ∀ (x y s : List K) (d? : Option (List K)) (ks : List K)
      (cs : List (Coef K)),
    List.Chain' (· < ·) x → y.length = x.length → s.length = x.length →
    buildSegs x y s d? = .ok (ks, cs) →
    List.Chain' segJoin (ks.zip cs) ∧
      (∀ c, cs.head? = some c → ∀ v, y.head? = some v → c.a = v)
  | [], _, _, _, ks, cs, _, _, _, h => by
    simp [buildSegs] at h
  | [x0], y, s, d?, ks, cs, _, _, _, h => by
    simp only [buildSegs, Except.ok.injEq, Prod.mk.injEq] at h
    obtain ⟨hks, hcs⟩ := h
    subst hks; subst hcs
    simp
  | x0 :: x1 :: xs, y, s, d?, ks, cs, hch, hy, hs, h => by
    rcases y with _ | ⟨y0, y⟩
    · simp at hy
    rcases y with _ | ⟨y1, ys⟩
    · simp at hy
    rcases s with _ | ⟨s0, s⟩
    · simp at hs
    rcases s with _ | ⟨s1, ss⟩
    · simp at hs
    rw [buildSegs] at h
    cases hI : buildInterval x0 x1 y0 y1 s0 s1 (d?.bind List.head?) with
    | error e => rw [hI] at h; simp at h
    | ok p =>
      rw [hI] at h
      obtain ⟨ksI, csI⟩ := p
      cases hR : buildSegs (x1 :: xs) (y1 :: ys) (s1 :: ss)
          (d?.map (List.drop 1)) with
      | error e => rw [hR] at h; simp at h
      | ok q =>
        rw [hR] at h
        obtain ⟨ksR, csR⟩ := q
        simp only [Except.ok.injEq, Prod.mk.injEq] at h
        obtain ⟨hks, hcs⟩ := h
        have hx01 : x0 < x1 := (List.chain'_cons.mp hch).1
        have IH := buildSegs_chain (x1 :: xs) (y1 :: ys) (s1 :: ss)
          (d?.map (List.drop 1)) ksR csR (List.chain'_cons.mp hch).2
          (by simpa using hy) (by simpa using hs) hR
        obtain ⟨ihch, iha⟩ := IH
        have hinv := buildSegs_invariants (x1 :: xs) (y1 :: ys) (s1 :: ss)
          (d?.map (List.drop 1)) ksR csR (List.chain'_cons.mp hch).2
          (by simpa using hy) (by simpa using hs) hR
        have hRhd : ksR.head? = some x1 := by simpa using hinv.2.1
        obtain ⟨hcI, hlastI, hheadI, hlenI, hhdI⟩ := buildInterval_cont hx01 hI
        rcases buildInterval_ok hI with ⟨_, hksI, hcsI⟩ |
            ⟨_, d, _, hksI, hcsI⟩
        · subst hksI; subst hcsI; subst hks; subst hcs
          constructor
          · simp only [List.cons_append, List.nil_append,
              List.zip_cons_cons]
            rw [List.chain'_cons']
            refine ⟨?_, ihch⟩
            intro b hb
            rcases ksR with _ | ⟨k1, kt⟩
            · simp at hRhd
            rcases csR with _ | ⟨c1, ct⟩
            · simp at hb
            simp only [List.head?_cons, Option.some.injEq] at hRhd
            simp only [List.zip_cons_cons, List.head?_cons] at hb
            obtain rfl : (k1, c1) = b := by simpa using hb
            have h1 := hlastI (x0, ⟨y0, s0, (s1 - s0) / (2 * (x1 - x0))⟩)
              (by simp)
            have h2 := iha c1 (by simp) y1 (by simp)
            simp only [segJoin, hRhd]
            rw [h2]
            exact h1
          · intro c hc' v hv
            simp only [List.cons_append, List.nil_append,
              List.head?_cons, Option.some.injEq] at hc' hv
            rw [← hc', ← hv]
        · obtain ⟨cA, cB, hAB⟩ : ∃ u v,
              caseTwo x0 x1 y0 y1 s0 s1 (insertedKnot x0 x1 s0 s1 d) =
                [u, v] := ⟨_, _, rfl⟩
          rw [hAB] at hcsI
          subst hksI; subst hcsI; subst hks; subst hcs
          constructor
          · simp only [List.cons_append, List.nil_append,
              List.zip_cons_cons]
            rw [List.chain'_cons]
            constructor
            · have hc2 := hcI
              simp only [List.zip_cons_cons, List.zip_nil_right] at hc2
              exact (List.chain'_cons.mp hc2).1
            rw [List.chain'_cons']
            refine ⟨?_, ihch⟩
            intro b hb
            rcases ksR with _ | ⟨k1, kt⟩
            · simp at hRhd
            rcases csR with _ | ⟨c1, ct⟩
            · simp at hb
            simp only [List.head?_cons, Option.some.injEq] at hRhd
            simp only [List.zip_cons_cons, List.head?_cons] at hb
            obtain rfl : (k1, c1) = b := by simpa using hb
            have h1 := hlastI (insertedKnot x0 x1 s0 s1 d, cB) (by simp)
            have h2 := iha c1 (by simp) y1 (by simp)
            simp only [segJoin, hRhd]
            rw [h2]
            exact h1
          · intro c hc' v hv
            simp only [List.cons_append, List.head?_cons,
              Option.some.injEq] at hc' hv
            have hA := hheadI cA (by simp)
            rw [← hc', ← hv]
            exact hA

/-- CLAIM C2: for every successful run, the piecewise quadratic is C0
continuous at every internal knot: the quadratic of the sub-interval
ending at knot `j+1`, evaluated there (in exact arithmetic), equals the
`A` coefficient of the sub-interval starting at that knot — for all
sub-intervals, subdivided ones included. -/
theorem c2_c0_continuity (x y : List ℝ) (s? : Option (List ℝ))
    (ks : List ℝ) (cs : List (Coef ℝ))
    (h : schumakerCore x y s? = .ok (ks, cs)) (j : ℕ)
    (hj : j + 1 < cs.length) (hk : j + 1 < ks.length) :
    evalQ (cs.get ⟨j, by omega⟩)
        (ks.get ⟨j + 1, hk⟩ - ks.get ⟨j, by omega⟩) =
      (cs.get ⟨j + 1, hj⟩).a := by
  obtain ⟨s, d?, hch, hy, hs, hb⟩ := schumakerCore_ok_elim h
  have hc := (buildSegs_chain x y s d? ks cs hch hy hs hb).1
  have hzlen : (ks.zip cs).length = cs.length := by
    have hlen := (buildSegs_invariants x y s d? ks cs hch hy hs hb).2.2.2.2.2
    simp only [List.length_zip]
    omega
  have hrel := List.chain'_iff_get.mp hc j (by omega)
  simp only [List.get_zip, segJoin] at hrel
  exact hrel

/-- Witness for C2 at the concrete supplied-slope run
`x = [0,1,2]`, `y = [0,1,2]`, `s = [1,1,1]` (knots `[0,1,2]`,
triples `(0,1,0)` and `(1,1,0)`), at the internal knot `1`. -/
theorem c2_witness :
    evalQ (([⟨0, 1, 0⟩, ⟨1, 1, 0⟩] : List (Coef ℝ)).get ⟨0, by norm_num⟩)
        (([0, 1, 2] : List ℝ).get ⟨1, by norm_num⟩ -
          ([0, 1, 2] : List ℝ).get ⟨0, by norm_num⟩) =
      (([⟨0, 1, 0⟩, ⟨1, 1, 0⟩] : List (Coef ℝ)).get ⟨1, by norm_num⟩).a :=
  c2_c0_continuity [0, 1, 2] [0, 1, 2] (some [1, 1, 1]) [0, 1, 2]
    [⟨0, 1, 0⟩, ⟨1, 1, 0⟩] run_linear3 0 (by norm_num) (by norm_num)

/-! ## Claim C5: the slope-estimation formulas -/

/-- Each entry of the estimated slope list is the final array state. -/
lemma estimateSlopes_getD {x y s : List ℝ} (h : estimateSlopes x y = .ok s)
    (i : ℕ) (hi : i < x.length) : s.getD i 0 = estSlope x y i := by
  simp only [estimateSlopes] at h
  by_cases hn : x.length < 2
  · rw [if_pos hn] at h
    exact absurd h (by simp)
  · rw [if_neg hn] at h
    simp only [Except.ok.injEq] at h
    subst h
    simp [List.getD, hi]

/-- CLAIM C5 (amended): a successful estimation returns `n` slopes.
Each interior entry (`1 ≤ i ≤ n-2`) is the chord-length-weighted blend
of the neighbouring secants when their product is positive and `0`
otherwise (also when a secant is zero).  The claimed endpoint equations
`s[0] = (3δ[0] - s[1])/2` and `s[n-1] = (3δ[n-2] - s[n-2])/2` hold as
equations on the final list only for `n ≥ 3`; for `n = 2` the order of
the two endpoint assignments matters (`s[1]` is still `0` when `s[0]`
is computed, and `s[n-2] = s[0]` has already been updated when `s[n-1]`
is computed), giving `s[0] = 3δ[0]/2` and `s[1] = 3δ[0]/4` instead. -/
theorem c5_estimator_formulas (x y : List ℝ) (s : List ℝ)
    (h : estimateSlopes x y = .ok s) :
    s.length = x.length ∧
    (∀ i, 1 ≤ i → i ≤ x.length - 2 →
      s.getD i 0 =
        if (secants x y).getD (i - 1) 0 * (secants x y).getD i 0 > 0 then
          ((chordLengths x y).getD (i - 1) 0 * (secants x y).getD (i - 1) 0 +
              (chordLengths x y).getD i 0 * (secants x y).getD i 0) /
            ((chordLengths x y).getD (i - 1) 0 + (chordLengths x y).getD i 0)
        else 0) ∧
    (3 ≤ x.length →
      s.getD 0 0 = (3 * (secants x y).getD 0 0 - s.getD 1 0) / 2 ∧
      s.getD (x.length - 1) 0 =
        (3 * (secants x y).getD (x.length - 2) 0 -
          s.getD (x.length - 2) 0) / 2) ∧
    (x.length = 2 →
      s.getD 0 0 = 3 * (secants x y).getD 0 0 / 2 ∧
      s.getD 1 0 = 3 * (secants x y).getD 0 0 / 4) := by
  have hn2 : 2 ≤ x.length := by
    simp only [estimateSlopes] at h
    by_cases hn : x.length < 2
    · rw [if_pos hn] at h
      exact absurd h (by simp)
    · omega
  refine ⟨estimateSlopes_length h, ?_, ?_, ?_⟩
  · intro i h1 h2
    rw [estimateSlopes_getD h i (by omega)]
    unfold estSlope
    rw [if_neg (by omega), if_neg (by omega)]
    unfold sLoopFn
    rw [if_pos ⟨h1, h2⟩]
  · intro h3
    constructor
    · rw [estimateSlopes_getD h 0 (by omega),
        estimateSlopes_getD h 1 (by omega)]
      unfold estSlope
      rw [if_pos rfl, if_neg (by omega), if_neg (by omega)]
      unfold sHead
      rfl
    · rw [estimateSlopes_getD h (x.length - 1) (by omega),
        estimateSlopes_getD h (x.length - 2) (by omega)]
      unfold estSlope
      rw [if_neg (by omega), if_pos rfl, if_neg (by omega),
        if_neg (by omega)]
      unfold sLastVal
      rw [if_neg (by omega)]
  · intro h2
    have hA : s.getD 0 0 = sHead x y := by
      rw [estimateSlopes_getD h 0 (by omega)]
      unfold estSlope
      rw [if_pos rfl]
    have hL1 : sLoopFn x y 1 = 0 := by
      unfold sLoopFn
      rw [if_neg (by omega)]
    have hH : sHead x y = 3 * (secants x y).getD 0 0 / 2 := by
      unfold sHead
      rw [hL1]
      ring
    constructor
    · rw [hA, hH]
    · rw [estimateSlopes_getD h 1 (by omega)]
      unfold estSlope
      rw [if_neg (by omega), if_pos (by omega)]
      unfold sLastVal
      rw [if_pos (by omega), hH]
      rw [show x.length - 2 = 0 from by omega]
      ring

/-- Counterexample to CLAIM C5 as stated: for the valid 2-point input
`x = [0,1]`, `y = [0,1]` (secant `δ[0] = 1`) the estimator returns
`s = [3/2, 3/4]`, and the claimed endpoint equation
`s[0] = (3·δ[0] - s[1])/2` fails: `(3·1 - 3/4)/2 = 9/8 ≠ 3/2`. -/
theorem c5_counterexample :
    estimateSlopes [0, 1] [0, 1] = .ok [3 / 2, 3 / 4] ∧
      ¬ ((3 : ℝ) / 2 = (3 * 1 - 3 / 4) / 2) := by
  constructor
  · have hr : List.range 2 = [0, 1] := rfl
    norm_num [estimateSlopes, estSlope, sHead, sLastVal, sLoopFn,
      secants, diffs, hr]
  · norm_num

/-- Witness for C5 (amended) at the 3-point input `x = [0,3,6]`,
`y = [0,4,8]` (both secants `4/3`, both chords `5`): the interior
entry is the weighted blend `4/3` and the endpoint equations hold. -/
theorem c5_witness :
    estimateSlopes [0, 3, 6] [0, 4, 8] = .ok [4 / 3, 4 / 3, 4 / 3] ∧
      ([4 / 3, 4 / 3, 4 / 3] : List ℝ).getD 0 0 =
        (3 * (secants [0, 3, 6] [0, 4, 8]).getD 0 0 -
          ([4 / 3, 4 / 3, 4 / 3] : List ℝ).getD 1 0) / 2 ∧
      ([4 / 3, 4 / 3, 4 / 3] : List ℝ).getD 2 0 =
        (3 * (secants [0, 3, 6] [0, 4, 8]).getD 1 0 -
          ([4 / 3, 4 / 3, 4 / 3] : List ℝ).getD 1 0) / 2 := by
  have hr : List.range 3 = [0, 1, 2] := rfl
  have h5 : Real.sqrt (25 : ℝ) = 5 := by
    rw [show (25 : ℝ) = 5 ^ 2 by norm_num]
    exact Real.sqrt_sq (by norm_num)
  have hrun : estimateSlopes [0, 3, 6] [0, 4, 8] =
      .ok [4 / 3, 4 / 3, 4 / 3] := by
    norm_num [estimateSlopes, estSlope, sHead, sLastVal, sLoopFn,
      secants, diffs, chordLengths, hr, h5]
  have hmain := c5_estimator_formulas [0, 3, 6] [0, 4, 8]
    [4 / 3, 4 / 3, 4 / 3] hrun
  refine ⟨hrun, ?_, ?_⟩
  · exact (hmain.2.2.1 (by norm_num)).1
  · exact (hmain.2.2.1 (by norm_num)).2

/-! ## Claim C9: the symbolic (sympy) export mode -/

/-- Abstract syntax of the sympy expressions built on line 93. -/
inductive SymExpr (K : Type) : Type
  | const (c : K) : SymExpr K
  | var : SymExpr K
  | add (e1 e2 : SymExpr K) : SymExpr K
  | sub (e1 e2 : SymExpr K) : SymExpr K
  | mul (e1 e2 : SymExpr K) : SymExpr K
  | pow (e : SymExpr K) (n : ℕ) : SymExpr K

/-- Value of a symbolic expression at `x_sym = v`. -/
def SymExpr.eval {K : Type} [LinearOrderedField K] : SymExpr K → K → K
  | .const c, _ => c
  | .var, v => v
  | .add e1 e2, v => e1.eval v + e2.eval v
  | .sub e1 e2, v => e1.eval v - e2.eval v
  | .mul e1 e2, v => e1.eval v * e2.eval v
  | .pow e n, v => e.eval v ^ n

/-- Abstract syntax of the interval conditions built on line 94:
`(x_sym >= t) & (x_sym <= knots[i+1])`. -/
inductive SymCond (K : Type) : Type
  | ge (t : K) : SymCond K
  | le (t : K) : SymCond K
  | and (c1 c2 : SymCond K) : SymCond K

/-- Truth of an interval condition at `x_sym = v`. -/
def SymCond.holds {K : Type} [LinearOrderedField K] : SymCond K → K → Prop
  | .ge t, v => v ≥ t
  | .le t, v => v ≤ t
  | .and c1 c2, v => c1.holds v ∧ c2.holds v

/-- Lines 88-95: the pieces of the sympy `Piecewise`: for each
`i < len(knots) - 1`, the quadratic `a + b*(x_sym - t) + c*(x_sym - t)**2`
paired with the condition `(x_sym >= t) & (x_sym <= knots[i+1])`.
The `getD` defaults are never read: the loop indexes
`knots[i]`, `knots[i+1]` and `coeffs[i]` for `i < len(knots) - 1`,
in bounds because `len(coeffs) = len(knots) - 1`. -/
def sympyPieces {K : Type} [LinearOrderedField K]
    (ks : List K) (cs : List (Coef K)) : List (SymExpr K × SymCond K) :=
  (List.range (ks.length - 1)).map fun i =>
    (.add (.add (.const (cs.getD i ⟨0, 0, 0⟩).a)
          (.mul (.const (cs.getD i ⟨0, 0, 0⟩).b)
            (.sub .var (.const (ks.getD i 0)))))
        (.mul (.const (cs.getD i ⟨0, 0, 0⟩).c)
          (.pow (.sub .var (.const (ks.getD i 0))) 2)),
      .and (.ge (ks.getD i 0)) (.le (ks.getD (i + 1) 0)))

/-- The routine in sympy mode (lines 87-96): the same construction,
then the piecewise transformation of the knot/coefficient arrays. -/
noncomputable def schumakerSympy (x y : List ℝ) (s? : Option (List ℝ)) :
    Except Err (List (SymExpr ℝ × SymCond ℝ)) :=
  match schumakerCore x y s? with
  | .error e => .error e
  | .ok (ks, cs) => .ok (sympyPieces ks cs)

/-- CLAIM C9: in symbolic mode a successful run returns exactly
`len(knots) - 1` pieces, piece `i` being the quadratic
`A + B*(x - t_i) + C*(x - t_i)^2` of sub-interval `i` paired with the
closed interval condition `t_i ≤ x ≤ t_{i+1}`. -/
theorem c9_sympy_pieces (x y : List ℝ) (s? : Option (List ℝ))
    (ks : List ℝ) (cs : List (Coef ℝ)) (ps : List (SymExpr ℝ × SymCond ℝ))
    (hc : schumakerCore x y s? = .ok (ks, cs))
    (hp : schumakerSympy x y s? = .ok ps) :
    ps.length = ks.length - 1 ∧
    ∀ i, i < ps.length → ∀ v : ℝ,
      ((ps.getD i (.var, .ge 0)).1.eval v =
        (cs.getD i ⟨0, 0, 0⟩).a +
          (cs.getD i ⟨0, 0, 0⟩).b * (v - ks.getD i 0) +
          (cs.getD i ⟨0, 0, 0⟩).c * (v - ks.getD i 0) ^ 2) ∧
      ((ps.getD i (.var, .ge 0)).2.holds v ↔
        ks.getD i 0 ≤ v ∧ v ≤ ks.getD (i + 1) 0) := by
  unfold schumakerSympy at hp
  rw [hc] at hp
  simp only [Except.ok.injEq] at hp
  subst hp
  constructor
  · simp [sympyPieces]
  · intro i hi v
    have hi' : i < ks.length - 1 := by
      simpa [sympyPieces] using hi
    have hg : (sympyPieces ks cs).getD i (.var, .ge 0) =
        (.add (.add (.const (cs.getD i ⟨0, 0, 0⟩).a)
              (.mul (.const (cs.getD i ⟨0, 0, 0⟩).b)
                (.sub .var (.const (ks.getD i 0)))))
            (.mul (.const (cs.getD i ⟨0, 0, 0⟩).c)
              (.pow (.sub .var (.const (ks.getD i 0))) 2)),
          .and (.ge (ks.getD i 0)) (.le (ks.getD (i + 1) 0))) := by
      simp [sympyPieces, List.getD, hi']
    rw [hg]
    exact ⟨rfl, Iff.rfl⟩

/-- Witness for C9 at the concrete estimated-slope run
`x = [0,3,6]`, `y = [0,4,8]` (knots `[0,3,6]`, two triples), piece 0
evaluated at `v = 1`. -/
theorem c9_witness :
    (sympyPieces ([0, 3, 6] : List ℝ)
        [⟨0, 4 / 3, 0⟩, ⟨4, 4 / 3, 0⟩]).length =
      ([0, 3, 6] : List ℝ).length - 1 ∧
    ((sympyPieces ([0, 3, 6] : List ℝ)
          [⟨0, 4 / 3, 0⟩, ⟨4, 4 / 3, 0⟩]).getD 0 (.var, .ge 0)).1.eval 1 =
      (([⟨0, 4 / 3, 0⟩, ⟨4, 4 / 3, 0⟩] : List (Coef ℝ)).getD 0
          ⟨0, 0, 0⟩).a +
        (([⟨0, 4 / 3, 0⟩, ⟨4, 4 / 3, 0⟩] : List (Coef ℝ)).getD 0
            ⟨0, 0, 0⟩).b *
          (1 - ([0, 3, 6] : List ℝ).getD 0 0) +
        (([⟨0, 4 / 3, 0⟩, ⟨4, 4 / 3, 0⟩] : List (Coef ℝ)).getD 0
            ⟨0, 0, 0⟩).c *
          (1 - ([0, 3, 6] : List ℝ).getD 0 0) ^ 2 ∧
    (((sympyPieces ([0, 3, 6] : List ℝ)
          [⟨0, 4 / 3, 0⟩, ⟨4, 4 / 3, 0⟩]).getD 0 (.var, .ge 0)).2.holds 1 ↔
      ([0, 3, 6] : List ℝ).getD 0 0 ≤ 1 ∧
        1 ≤ ([0, 3, 6] : List ℝ).getD 1 0) := by
  have hp : schumakerSympy [0, 3, 6] [0, 4, 8] none =
      .ok (sympyPieces ([0, 3, 6] : List ℝ)
        [⟨0, 4 / 3, 0⟩, ⟨4, 4 / 3, 0⟩]) := by
    unfold schumakerSympy
    rw [run_pyth3]
  have h := c9_sympy_pieces [0, 3, 6] [0, 4, 8] none [0, 3, 6]
    [⟨0, 4 / 3, 0⟩, ⟨4, 4 / 3, 0⟩] _ run_pyth3 hp
  refine ⟨h.1, (h.2 0 ?_ 1).1, (h.2 0 ?_ 1).2⟩
  · simp [sympyPieces]
  · simp [sympyPieces]

/-! ## Claim C4: monotonicity preservation fails -/

/-- Modelled from the spec: the repository has no numeric evaluator
under src (spec section 4.3 describes one; the example script only uses
the sympy form), so the evaluation map of the data model is taken from
the spec's words: locate the sub-interval whose knot bounds include the
query (each piece owns `[t_i, t_{i+1})`, the rightmost piece closed on
both ends) and evaluate that piece's quadratic at the offset from its
left knot. -/
def splineEval {K : Type} [LinearOrderedField K] :
    List K → List (Coef K) → K → K
  | t0 :: t1 :: ts, c :: c1 :: cs, v =>
    if v < t1 then evalQ c (v - t0)
    else splineEval (t1 :: ts) (c1 :: cs) v
  | t0 :: _, c :: _, v => evalQ c (v - t0)
  | _, _, _ => 0

/-- The estimated slopes for the C4 input `x = [0, 50, 62, 112]`,
`y = [0, 120, 125, 245]`: the chords are `130, 13, 130` (3-4-5 and
5-12-13 triangles) and the secants `12/5, 5/12, 12/5`, so both interior
blends give `293/132 ≈ 2.22` — far above twice the middle secant
`5/12`. -/
lemma est_c4 : estimateSlopes [0, 50, 62, 112] [0, 120, 125, 245] =
    .ok [3287 / 1320, 293 / 132, 293 / 132, 3287 / 1320] := by
  have hr : List.range 4 = [0, 1, 2, 3] := rfl
  have h130 : Real.sqrt (16900 : ℝ) = 130 := by
    rw [show (16900 : ℝ) = 130 ^ 2 by norm_num]
    exact Real.sqrt_sq (by norm_num)
  have h13 : Real.sqrt (169 : ℝ) = 13 := by
    rw [show (169 : ℝ) = 13 ^ 2 by norm_num]
    exact Real.sqrt_sq (by norm_num)
  norm_num [estimateSlopes, estSlope, sHead, sLastVal, sLoopFn, secants,
    diffs, chordLengths, hr, h130, h13]

/-- The full run on the C4 input: every interval subdivides; in the
middle interval the midpoint branch fires and the second piece starts
at knot `56` with slope `sbar = -61/44 < 0`. -/
lemma run_c4 : schumakerCore [0, 50, 62, 112] [0, 120, 125, 245] none =
    .ok ([0, 100 / 3, 50, 56, 62, 236 / 3, 112],
      [⟨0, 3287 / 1320, -119 / 88000⟩, ⟨32275 / 396, 12 / 5, -119 / 22000⟩,
        ⟨120, 293 / 132, -119 / 396⟩, ⟨245 / 2, -61 / 44, 119 / 396⟩,
        ⟨125, 293 / 132, 119 / 22000⟩,
        ⟨64745 / 396, 12 / 5, 119 / 88000⟩]) := by
  unfold schumakerCore
  rw [est_c4]
  norm_num [validate, buildSegs, buildInterval, insertedKnot, caseTwo,
    secants, diffs]

/-- CLAIM C4 is a code bug: on the strictly increasing input
`x = [0, 50, 62, 112]`, `y = [0, 120, 125, 245]` with estimated slopes,
the spline is not non-decreasing: its value at `57` is below its value
at `56` (the middle interval's second piece starts with negative slope
`-61/44`), although the docstring and spec promise a co-monotone
interpolant.  The slope estimator puts both endpoint slopes of the flat
middle interval near the steep outer secant `12/5`, which no monotone
`C^1` interpolant with secant `5/12` can accommodate. -/
theorem c4_not_monotone :
    match schumakerCore [0, 50, 62, 112] [0, 120, 125, 245] none with
    | .ok (ks, cs) => splineEval ks cs 57 < splineEval ks cs 56
    | .error _ => False := by
  rw [run_c4]
  norm_num [splineEval, evalQ]

/-! ## Claim C8: a tiny subdivision parameter is not surfaced -/

/-- The estimated slopes for the C8 input `x = [0, 30000, 34000, 34012]`,
`y = [0, 40000, 43000, 43005]` (chords `50000, 5000, 13`). -/
lemma est_c8 : estimateSlopes [0, 30000, 34000, 34012]
      [0, 40000, 43000, 43005] =
    .ok [359 / 264, 169 / 132, 45065 / 60156, 15065 / 60156] := by
  have hr : List.range 4 = [0, 1, 2, 3] := rfl
  have h1 : Real.sqrt (2500000000 : ℝ) = 50000 := by
    rw [show (2500000000 : ℝ) = 50000 ^ 2 by norm_num]
    exact Real.sqrt_sq (by norm_num)
  have h2 : Real.sqrt (25000000 : ℝ) = 5000 := by
    rw [show (25000000 : ℝ) = 5000 ^ 2 by norm_num]
    exact Real.sqrt_sq (by norm_num)
  have h3 : Real.sqrt (169 : ℝ) = 13 := by
    rw [show (169 : ℝ) = 13 ^ 2 by norm_num]
    exact Real.sqrt_sq (by norm_num)
  norm_num [estimateSlopes, estSlope, sHead, sLastVal, sLoopFn, secants,
    diffs, chordLengths, hr, h1, h2, h3]

/-- The full run on the C8 input: the middle interval takes the second
Case-2 branch and the inserted knot `30000 + 1144000/175741` lands about
`6.51` past the left endpoint of a `4000`-wide interval
(`α/h ≈ 0.0016`). -/
lemma run_c8 : schumakerCore [0, 30000, 34000, 34012]
      [0, 40000, 43000, 43005] none =
    .ok ([0, 20000, 30000, 5273374000 / 175741, 34000, 34004, 34012],
      [⟨0, 359 / 264, -7 / 10560000⟩, ⟨296250 / 11, 4 / 3, -7 / 2640000⟩,
        ⟨40000, 169 / 132, -1230187 / 30201600⟩,
        ⟨314812000 / 7869, 3 / 4, -2284633 / 21109341960000⟩,
        ⟨43000, 45065 / 60156, -625 / 15039⟩,
        ⟨646712065 / 15039, 5 / 12, -625 / 60156⟩]) := by
  unfold schumakerCore
  rw [est_c8]
  norm_num [validate, buildSegs, buildInterval, insertedKnot, caseTwo,
    secants, diffs]

/-- Counterexample to CLAIM C8 as stated: on a valid input whose middle
interval gets its knot inserted within `1/500` of the interval width
from the left endpoint (`α ≈ 6.51` of `h = 4000`), the routine returns
normally — no `DegenerateIntervalError` (or any error) is surfaced for
the near-zero `α`. -/
theorem c8_counterexample :
    match schumakerCore [0, 30000, 34000, 34012]
        [0, 40000, 43000, 43005] none with
    | .ok (ks, _) =>
      0 < ks.getD 3 0 - ks.getD 2 0 ∧
        ks.getD 3 0 - ks.getD 2 0 < (ks.getD 4 0 - ks.getD 2 0) / 500
    | .error _ => False := by
  rw [run_c8]
  norm_num [List.getD]

end Schumaker
